import Mathlib

/-!
Verification of the knot-exporter response-interpretation and
metric-materialization engine (package `utils` and package `collector`),
shallowly embedded in Lean.

Strings are modelled as Lean `String`/`List Char`; Go `float64` values that
the program ever emits are integral or decimal numbers, modelled exactly as
rationals (`ℚ`); machine integers are modelled as `Int` with the explicit
64-bit range check where the source performs one.  The control-socket
transport is modelled at its interface boundary: a phase consumes a list of
receive results, each either a tagged record or a transport error.
-/

/-! ## Character-level helpers (boundary models of the Go standard library) -/

/-- Boundary model of Go `strings.ToLower`, one character at a time: map an
ASCII uppercase letter to the corresponding lowercase letter and leave every
other character unchanged (the sanitizer's inputs are ASCII statistic
names). -/
def goToLower (c : Char) : Char :=
  if 65 ≤ c.toNat ∧ c.toNat ≤ 90 then Char.ofNat (c.toNat + 32) else c

/-- Boundary model of Go `unicode.IsSpace`: the Unicode white-space code
points. -/
def goIsSpace (c : Char) : Bool :=
  let n := c.toNat
  (9 ≤ n && n ≤ 13) || n == 32 || n == 0x85 || n == 0xA0 || n == 0x1680 ||
  (0x2000 ≤ n && n ≤ 0x200A) || n == 0x2028 || n == 0x2029 || n == 0x202F ||
  n == 0x205F || n == 0x3000

/-- Numeric value of a list of decimal digit characters, most significant
first; boundary model of Go `strconv` digit-string conversion. -/
def digitsToNat (ds : List Char) : Nat :=
  ds.foldl (fun a c => 10 * a + (c.toNat - 48)) 0

/-- Splitting of an optional leading sign: consume a leading `+` or `-`
and report whether the value is negated; boundary model of the sign
handling of Go `strconv.ParseInt`/`ParseFloat`. -/
def splitNeg (cs : List Char) : Bool × List Char :=
  match cs with
  | [] => (false, [])
  | c :: t => if c = '+' then (false, t) else if c = '-' then (true, t) else (false, c :: t)

/-- Boundary model of Go `strconv.ParseInt(s, 10, 64)`: an optional sign,
then at least one decimal digit and nothing else, with the result required
to fit in a signed 64-bit integer (Go reports an overflow as an error and
the callers in this repository treat any error as a parse failure). -/
def goParseInt64 (s : String) : Option Int :=
  let sn := splitNeg s.data
  let sgn : Int := if sn.1 then -1 else 1
  let ds := sn.2
  if ds = [] then none
  else if ds.all Char.isDigit then
    let v : Int := sgn * (digitsToNat ds : Int)
    if -9223372036854775808 ≤ v ∧ v ≤ 9223372036854775807 then some v else none
  else none

/-- Boundary model of Go `strconv.ParseFloat(s, 64)` on the decimal forms the
program receives from the control socket: an optional sign, an integer part
and an optional fractional part, at least one digit in total, evaluated
exactly as a rational. -/
def goParseFloat (s : String) : Option ℚ :=
  let sn := splitNeg s.data
  let sgn : Int := if sn.1 then -1 else 1
  let ds := sn.2
  let ip := ds.takeWhile Char.isDigit
  let rest := ds.dropWhile Char.isDigit
  match rest with
  | [] => if ip = [] then none else some ((sgn * (digitsToNat ip : Int) : Int) : ℚ)
  | '.' :: fp =>
    if fp.all Char.isDigit ∧ ¬(ip = [] ∧ fp = []) then
      some ((sgn : ℚ) * ((digitsToNat ip : ℚ) + (digitsToNat fp : ℚ) / (10 : ℚ) ^ fp.length))
    else none
  | _ => none

/-! ## Package `utils` -/

/-- Embeds `utils.IsPrefixIn` (`utils.go`): whether `s` starts with any of
the given strings; the source compares `s[:len(p)]` with `p`. -/
def IsPrefixIn (s : String) (ps : List String) : Bool :=
  ps.any fun p => s.data.take p.data.length == p.data

/-- Replacement step of `utils.SanitizeMetricName`: each of `-`, space, `.`,
`/`, `+` becomes `_`; every other character is kept. -/
def replaceInvalidChar (c : Char) : Char :=
  if c = '-' ∨ c = ' ' ∨ c = '.' ∨ c = '/' ∨ c = '+' then '_' else c

/-- Embeds `utils.SanitizeMetricName` (`utils.go`): lowercase the name, then
replace each of `-`, space, `.`, `/`, `+` with `_`. -/
def SanitizeMetricName (name : String) : String :=
  ⟨(name.data.map goToLower).map replaceInvalidChar⟩

/-- One optional group `(\d+)u` of the anchored duration regular expression
`^([+-])((\d+)D)?((\d+)h)?((\d+)m)?((\d+)s)?$` (`utils.go`, `durationRegex`):
if the input starts with a nonempty digit run followed by the unit character
`u`, consume it and return its numeric value, otherwise consume nothing and
contribute `0`, exactly as an absent optional group does.  Because the four
unit characters are distinct non-digits, this deterministic reading agrees
with the regular expression's backtracking search. -/
def parseGroup (u : Char) (cs : List Char) : Nat × List Char :=
  let ds := cs.takeWhile Char.isDigit
  let rest := cs.dropWhile Char.isDigit
  match ds, rest with
  | [], _ => (0, cs)
  | _ :: _, c :: rest' => if c = u then (digitsToNat ds, rest') else (0, cs)
  | _ :: _, [] => (0, cs)

/-- Character-level body of `utils.ParseDurationString`: match the whole
input against `^([+-])((\d+)D)?((\d+)h)?((\d+)m)?((\d+)s)?$` and on
success return `days*86400 + hours*3600 + minutes*60 + seconds`, negated
when the sign is `-`. -/
def parseDurationChars (cs : List Char) : Option Int :=
  match cs with
  | [] => none
  | c :: rest =>
    if c = '+' ∨ c = '-' then
      let sgn : Int := if c = '-' then -1 else 1
      let pD := parseGroup 'D' rest
      let ph := parseGroup 'h' pD.2
      let pm := parseGroup 'm' ph.2
      let ps := parseGroup 's' pm.2
      if ps.2 = [] then
        some (((pD.1 : Int) * 86400 + (ph.1 : Int) * 3600 + (pm.1 : Int) * 60 + (ps.1 : Int)) * sgn)
      else none
    else none

/-- Embeds `utils.ParseDurationString` (`utils.go`); `none` models the Go
`ok=false` return. -/
def ParseDurationString (durationStr : String) : Option Int :=
  parseDurationChars durationStr.data

/-- Boundary model of Go `strings.Fields` (used on the SOA record payload):
split around runs of white space, carrying the current word reversed. -/
def goFieldsGo (cs : List Char) (cur : List Char) : List (List Char) :=
  match cs with
  | [] => if cur = [] then [] else [cur.reverse]
  | c :: rest =>
    if goIsSpace c then
      if cur = [] then goFieldsGo rest []
      else cur.reverse :: goFieldsGo rest []
    else goFieldsGo rest (c :: cur)

/-- Boundary model of Go `strings.Fields` on `String`. -/
def goFields (s : String) : List String :=
  (goFieldsGo s.data []).map fun w => ⟨w⟩

/-- Boundary model of Go `strings.HasSuffix(s, ".")`: the last character is
a dot. -/
def hasSuffixDot (s : String) : Bool :=
  match s.data.getLast? with
  | some c => c = '.'
  | none => false

/-! ## Package `collector`: data model -/

/-- Tagged-record kinds delivered by the control-socket transport
(`libknot` boundary, §6 of the specification): `DATA`, `EXTRA`, `BLOCK`,
`END`. -/
inductive CtlType
  | Data
  | Extra
  | Block
  | End
deriving DecidableEq, Repr

/-- One tagged record from the transport (`libknot.CtlData`): five string
fields, possibly empty. -/
structure CtlData where
  Section : String
  ID : String
  Item : String
  Zone : String
  Data : String
deriving DecidableEq, Repr

/-- The all-empty record, used where the Go code ignores the payload. -/
def emptyCtlData : CtlData := ⟨"", "", "", "", ""⟩

/-- Result of one `ReceiveResponse` call: either a tagged record or a
transport error. -/
inductive RecvItem
  | resp (t : CtlType) (d : CtlData)
  | recvErr
deriving DecidableEq, Repr

/-- Metric descriptors of `collectors.go`: the fixed descriptors declared at
package level plus the two dynamic families created on demand from a raw
statistic name. -/
inductive Desc
  | buildInfo
  | memoryUsage
  | zoneSerial
  | zoneRefresh
  | zoneRetry
  | zoneExpiration
  | zoneStatusRefresh
  | zoneStatusExpiration
  | globalStat (item : String)
  | zoneStat (item : String)
deriving DecidableEq, Repr

/-- Fully-qualified base metric name of each descriptor, as built in
`collectors.go` (`makeDescPair` call sites, `getGlobalStatsDescriptor` and
`getZoneStatsDescriptor`); the counter half of a pair appends `_total`. -/
def Desc.fqName : Desc → String
  | .buildInfo => "knot_build_info"
  | .memoryUsage => "knot_memory_usage_bytes"
  | .zoneSerial => "knot_zone_serial"
  | .zoneRefresh => "knot_zone_refresh_seconds"
  | .zoneRetry => "knot_zone_retry_seconds"
  | .zoneExpiration => "knot_zone_expiration_seconds"
  | .zoneStatusRefresh => "knot_zone_status_refresh_seconds"
  | .zoneStatusExpiration => "knot_zone_status_expiration_seconds"
  | .globalStat item => "knot_stats_" ++ SanitizeMetricName item
  | .zoneStat item => "knot_zone_stats_" ++ SanitizeMetricName item

/-- One observation pushed to the metric sink (`prometheus.Metric` sent on
the collection channel): a descriptor, whether it is the `_total` counter
half of the pair, the numeric value and the label values in declared
order. -/
structure Obs where
  desc : Desc
  isTotal : Bool
  value : ℚ
  labelValues : List String
deriving DecidableEq, Repr

/-- Embeds `sendMetrics` (`collectors.go`): push the gauge observation and
the `_total` counter observation, both with the same value and labels. -/
def sendMetrics (d : Desc) (value : ℚ) (labelValues : List String) : List Obs :=
  [⟨d, false, value, labelValues⟩, ⟨d, true, value, labelValues⟩]

/-- Result of one collection phase: `ok` models a `nil` error return after a
`BLOCK`/`END`, `err` models a non-`nil` error return, and `hung` marks the
model's finite record list running out while the Go loop would still be
blocked on `ReceiveResponse`. -/
inductive PhaseOutcome
  | ok
  | err
  | hung
deriving DecidableEq, Repr

/-- True for a receive result that the phase loops process and continue
past: a tagged record that is neither `BLOCK` nor `END` (and not a
transport error). -/
def isPlainRec : RecvItem → Bool
  | .resp .Block _ => false
  | .resp .End _ => false
  | .resp _ _ => true
  | .recvErr => false

/-- A record list every element of which the phase loops process and
continue past. -/
def CleanStream (stream : List RecvItem) : Prop :=
  ∀ it ∈ stream, isPlainRec it = true

/-! ## Package `collector`: the four response-interpretation phases -/

/-- Per-record emission of `collectGlobalStats` (`collectors.go`): a
`DATA`/`EXTRA` record with nonempty `Item` and `Data` whose `Data` parses
as a number emits the dynamic global-stats pair labelled `(Section, ID)`;
anything else emits nothing. -/
def globalStatsHere (t : CtlType) (d : CtlData) : List Obs :=
  if (t = .Data ∨ t = .Extra) ∧ d.Item ≠ "" ∧ d.Data ≠ "" then
    match goParseFloat d.Data with
    | some v => sendMetrics (.globalStat d.Item) v [d.Section, d.ID]
    | none => []
  else []

/-- Receive loop of `collectGlobalStats`, record by record. -/
def globalStatsLoop : List RecvItem → List Obs × PhaseOutcome
  | [] => ([], .hung)
  | .recvErr :: _ => ([], .err)
  | .resp t d :: rest =>
    if t = .Block ∨ t = .End then ([], .ok)
    else
      let r := globalStatsLoop rest
      (globalStatsHere t d ++ r.1, r.2)

/-- Embeds `collectGlobalStats`: send the `stats` command (a send failure
returns the error with no observations), then run the receive loop. -/
def collectGlobalStats (sendOk : Bool) (stream : List RecvItem) :
    List Obs × PhaseOutcome :=
  if sendOk then globalStatsLoop stream else ([], .err)

/-- Embeds `convertStateTime` (`collectors.go`): the literal state words
`pending`, `running`, `frozen` (as prefixes) give `0`; `not scheduled` and
`-` give no value; otherwise the duration grammar decides, and a parse
failure gives no value. -/
def convertStateTime (timeStr : String) : Option Int :=
  if IsPrefixIn timeStr ["pending", "running", "frozen"] then some 0
  else if timeStr = "not scheduled" ∨ timeStr = "-" then none
  else ParseDurationString timeStr

/-- Receive loop of `collectZoneStatusInfo` (`collectors.go`), carrying the
current-zone cursor and the positional index: a `DATA` record with a
nonempty zone different from the cursor starts a new zone and resets the
index; an `EXTRA` record under a nonempty cursor advances the index and, at
index 1 (when serial collection is on) emits the zone serial, and at
indices 7 and 9 (when zone-status collection is on and the payload is
nonempty and not `-`) emits the refresh and expiration timers via
`convertStateTime`.  Serial emission of one `EXTRA` record at its
positional index follows. -/
def zoneStatusSerialObs (serialOn : Bool) (d : CtlData) (idx : Nat)
    (zone : String) : List Obs :=
  if serialOn ∧ idx = 1 then
    match goParseFloat d.Data with
    | some v => sendMetrics .zoneSerial v [zone]
    | none => []
  else []

/-- Timer emission of one `EXTRA` record at its positional index: indices 7
(refresh) and 9 (expiration) convert the payload via `convertStateTime`
when zone-status collection is on and the payload is nonempty and not
`-`. -/
def zoneStatusTimerObs (statusOn : Bool) (d : CtlData) (idx : Nat)
    (zone : String) : List Obs :=
  if statusOn ∧ d.Data ≠ "" ∧ d.Data ≠ "-" then
    if idx = 7 then
      match convertStateTime d.Data with
      | some secs => sendMetrics .zoneStatusRefresh (secs : ℚ) [zone]
      | none => []
    else if idx = 9 then
      match convertStateTime d.Data with
      | some secs => sendMetrics .zoneStatusExpiration (secs : ℚ) [zone]
      | none => []
    else []
  else []

/-- Receive loop of `collectZoneStatusInfo`, record by record. -/
def zoneStatusLoop (serialOn statusOn : Bool) :
    String → Nat → List RecvItem → List Obs × PhaseOutcome
  | _, _, [] => ([], .hung)
  | _, _, .recvErr :: _ => ([], .err)
  | currentZone, responseIndex, .resp t d :: rest =>
    if t = .Block ∨ t = .End then ([], .ok)
    else if t = .Data ∧ d.Zone ≠ "" ∧ d.Zone ≠ currentZone then
      zoneStatusLoop serialOn statusOn d.Zone 0 rest
    else if t = .Extra ∧ currentZone ≠ "" then
      let idx := responseIndex + 1
      let r := zoneStatusLoop serialOn statusOn currentZone idx rest
      (zoneStatusSerialObs serialOn d idx currentZone ++
        zoneStatusTimerObs statusOn d idx currentZone ++ r.1, r.2)
    else
      zoneStatusLoop serialOn statusOn currentZone responseIndex rest

/-- Embeds `collectZoneStatusInfo`: send the `zone-status` command (a send
failure returns the error with no observations), then run the receive loop
with an empty cursor and index `0`. -/
def collectZoneStatusInfo (serialOn statusOn sendOk : Bool)
    (stream : List RecvItem) : List Obs × PhaseOutcome :=
  if sendOk then zoneStatusLoop serialOn statusOn "" 0 stream else ([], .err)

/-- Per-record emission of `collectZoneStatistics` (`collectors.go`): a
`DATA`/`EXTRA` record with nonempty `Zone`, `Item` and `Data` whose `Data`
parses as a number emits the dynamic zone-stats pair labelled
`(Zone, Section, ID)`; anything else emits nothing. -/
def zoneStatsHere (t : CtlType) (d : CtlData) : List Obs :=
  if (t = .Data ∨ t = .Extra) ∧ d.Zone ≠ "" ∧ d.Item ≠ "" ∧ d.Data ≠ "" then
    match goParseFloat d.Data with
    | some v => sendMetrics (.zoneStat d.Item) v [d.Zone, d.Section, d.ID]
    | none => []
  else []

/-- Receive loop of `collectZoneStatistics`, record by record. -/
def zoneStatsLoop : List RecvItem → List Obs × PhaseOutcome
  | [] => ([], .hung)
  | .recvErr :: _ => ([], .err)
  | .resp t d :: rest =>
    if t = .Block ∨ t = .End then ([], .ok)
    else
      let r := zoneStatsLoop rest
      (zoneStatsHere t d ++ r.1, r.2)

/-- Embeds `collectZoneStatistics`: send the `zone-stats` command, then run
the receive loop. -/
def collectZoneStatistics (sendOk : Bool) (stream : List RecvItem) :
    List Obs × PhaseOutcome :=
  if sendOk then zoneStatsLoop stream else ([], .err)

/-- Per-record SOA decoding of `collectZoneTimerInfo` (`collectors.go`):
split the payload into fields; require exactly 7 fields, a trailing dot on
fields 0 and 1, and integer fields 2 through 6 (checked left to right, as
the Go loop breaks at the first failure); on acceptance emit refresh
(field 3), retry (field 4) and expiration (field 5) labelled by zone. -/
def zoneTimerStep (d : CtlData) : List Obs :=
  let soaFields := goFields d.Data
  if soaFields.length = 7 then
    if hasSuffixDot (soaFields.getD 0 "") ∧ hasSuffixDot (soaFields.getD 1 "") then
      match goParseInt64 (soaFields.getD 2 "") with
      | none => []
      | some _ =>
        match goParseInt64 (soaFields.getD 3 "") with
        | none => []
        | some refresh =>
          match goParseInt64 (soaFields.getD 4 "") with
          | none => []
          | some retry =>
            match goParseInt64 (soaFields.getD 5 "") with
            | none => []
            | some expiration =>
              match goParseInt64 (soaFields.getD 6 "") with
              | none => []
              | some _ =>
                sendMetrics .zoneRefresh (refresh : ℚ) [d.Zone] ++
                sendMetrics .zoneRetry (retry : ℚ) [d.Zone] ++
                sendMetrics .zoneExpiration (expiration : ℚ) [d.Zone]
    else []
  else []

/-- Hard bound on the records processed by one zone-timer phase
(`maxResponses` in `collectZoneTimerInfo`). -/
def maxResponses : Nat := 100000

/-- Receive loop of `collectZoneTimerInfo`, with the remaining allowance of
records (`maxResponses - count`): the Go loop runs while
`count < maxResponses`, so an exhausted allowance ends the phase without an
error; otherwise stop at `BLOCK`/`END`, fail on a transport error, and
decode every `DATA` record with a nonempty zone via `zoneTimerStep`. -/
def zoneTimerLoop : Nat → List RecvItem → List Obs × PhaseOutcome
  | 0, _ => ([], .ok)
  | _ + 1, [] => ([], .hung)
  | _ + 1, .recvErr :: _ => ([], .err)
  | allow + 1, .resp t d :: rest =>
    if t = .Block ∨ t = .End then ([], .ok)
    else
      let here : List Obs :=
        if t = .Data ∧ d.Zone ≠ "" then zoneTimerStep d else []
      let r := zoneTimerLoop allow rest
      (here ++ r.1, r.2)

/-- Embeds `collectZoneTimerInfo`: send `zone-read` with record type `SOA`
(a send failure returns the error with no observations), then run the
bounded receive loop. -/
def collectZoneTimerInfo (sendOk : Bool) (stream : List RecvItem) :
    List Obs × PhaseOutcome :=
  if sendOk then zoneTimerLoop maxResponses stream else ([], .err)

/-! ## Package `collector`: descriptor registry -/

/-- A `(value, total)` descriptor pair as built by `makeDescPair`
(`collectors.go`): the base fully-qualified name (the counter half appends
`_total`), the help text and the variable label schema. -/
structure DescPair where
  fqName : String
  help : String
  variableLabels : List String
deriving DecidableEq, Repr

/-- Lookup in the registry map, modelled as an association list keyed by the
raw statistic name. -/
def lookupDesc (st : List (String × DescPair)) (k : String) : Option DescPair :=
  match st with
  | [] => none
  | (k', d) :: rest => if k' = k then some d else lookupDesc rest k

/-- The descriptor pair `getGlobalStatsDescriptor` synthesizes for a raw
statistic name: metric name `knot_stats_<sanitized>`, help text and the
fixed `{module, type}` label schema. -/
def mkGlobalDescPair (item : String) : DescPair :=
  ⟨"knot_stats_" ++ SanitizeMetricName item, "Global statistic: " ++ item,
    ["module", "type"]⟩

/-- The descriptor pair `getZoneStatsDescriptor` synthesizes for a raw
statistic name: metric name `knot_zone_stats_<sanitized>`, help text and the
fixed `{zone, module, type}` label schema. -/
def mkZoneDescPair (item : String) : DescPair :=
  ⟨"knot_zone_stats_" ++ SanitizeMetricName item, "Zone statistic: " ++ item,
    ["zone", "module", "type"]⟩

/-- Embeds `getGlobalStatsDescriptor` (`collectors.go`) as an explicit state
transformer on the registry map: return the cached pair if present,
otherwise synthesize, insert and return it.  The double-checked
reader/writer locking of the source serializes these steps; the sequential
model is the behaviour it guarantees. -/
def getGlobalStatsDescriptor (st : List (String × DescPair)) (item : String) :
    DescPair × List (String × DescPair) :=
  match lookupDesc st item with
  | some d => (d, st)
  | none => (mkGlobalDescPair item, (item, mkGlobalDescPair item) :: st)

/-- Embeds `getZoneStatsDescriptor` (`collectors.go`), as for
`getGlobalStatsDescriptor`. -/
def getZoneStatsDescriptor (st : List (String × DescPair)) (item : String) :
    DescPair × List (String × DescPair) :=
  match lookupDesc st item with
  | some d => (d, st)
  | none => (mkZoneDescPair item, (item, mkZoneDescPair item) :: st)

/-- Number of entries the registry map holds under one raw name. -/
def countKey (st : List (String × DescPair)) (k : String) : Nat :=
  (st.filter fun p => p.1 == k).length

/-! ## Package `collector`: the orchestrator -/

/-- The collector's configuration flags (`KnotCollector` fields). -/
structure CollectorConfig where
  collectMemInfo : Bool
  collectStats : Bool
  collectZoneStats : Bool
  collectZoneStatus : Bool
  collectZoneTimers : Bool
  collectZoneSerial : Bool

/-- One collection pass's external world, at the boundaries of §6: whether
each `libknot.New` allocation and each `Connect` succeeds (the Go code opens
a fresh session per phase), the send result and the receive stream of each
phase, the memory-usage map of the process collaborator, and the label
values of the static build-info metric. -/
structure CollectEnv where
  alloc1 : Bool
  conn1 : Bool
  alloc2 : Bool
  conn2 : Bool
  alloc3 : Bool
  conn3 : Bool
  alloc4 : Bool
  conn4 : Bool
  memUsage : List (String × Nat)
  sendStatsOk : Bool
  sendZoneStatusOk : Bool
  sendZoneStatsOk : Bool
  sendZoneTimersOk : Bool
  statsStream : List RecvItem
  zoneStatusStream : List RecvItem
  zoneStatsStream : List RecvItem
  zoneTimersStream : List RecvItem
  buildLabels : List String

/-- The single static build-info observation `Collect` always emits first
(`prometheus.MustNewConstMetric(buildInfoDesc, GaugeValue, 1.0, ...)`). -/
def buildInfoObs (e : CollectEnv) : Obs :=
  ⟨.buildInfo, false, 1, e.buildLabels⟩

/-- The zone-timers tail of `Collect`: when enabled, open one more fresh
session and run the zone-timer phase; an allocation or connection failure
ends the pass. -/
def zoneTimersPart (f : CollectorConfig) (e : CollectEnv) : List Obs :=
  if f.collectZoneTimers then
    (if e.alloc4 = false then [] else
     if e.conn4 = false then [] else
     (collectZoneTimerInfo e.sendZoneTimersOk e.zoneTimersStream).1)
  else []

/-- Embeds `Collect` (`collectors.go`): emit the build-info metric, then run
the enabled phases in order, opening a fresh transport session before the
global-stats+memory block, before zone status, before zone statistics and
before zone timers; an allocation or connection failure abandons the
remaining steps, a phase error is logged and the pass continues, and no
error is ever surfaced to the caller (the Go method returns nothing).
This is the tail that follows the unconditional build-info metric. -/
def collectTail (f : CollectorConfig) (e : CollectEnv) : List Obs :=
  if e.alloc1 = false then [] else
  if e.conn1 = false then [] else
  (if f.collectMemInfo then
     e.memUsage.flatMap fun p => sendMetrics .memoryUsage (p.2 : ℚ) [p.1]
   else []) ++
  (if f.collectStats then (collectGlobalStats e.sendStatsOk e.statsStream).1
   else []) ++
  (if e.alloc2 = false then [] else
   if e.conn2 = false then [] else
   (if f.collectZoneStatus || f.collectZoneSerial then
      (collectZoneStatusInfo f.collectZoneSerial f.collectZoneStatus
        e.sendZoneStatusOk e.zoneStatusStream).1
    else []) ++
   (if f.collectZoneStats then
      (if e.alloc3 = false then [] else
       if e.conn3 = false then [] else
       (collectZoneStatistics e.sendZoneStatsOk e.zoneStatsStream).1 ++
       zoneTimersPart f e)
    else zoneTimersPart f e))

/-- Embeds `Collect` (`collectors.go`), split as the unconditional
build-info observation followed by the transport-dependent tail. -/
def Collect (f : CollectorConfig) (e : CollectEnv) : List Obs :=
  buildInfoObs e :: collectTail f e

/-! ## Helper lemmas -/

/-- Value of `Char.ofNat` at a valid code point. -/
theorem charToNatOfNatValid (n : Nat) (h : n.isValidChar) :
    (Char.ofNat n).toNat = n := by
  simp only [Char.ofNat, dif_pos h]
  rfl

/-- The replacement step keeps every character at or above code point 97
(in particular every ASCII lowercase letter and everything the lowercase
step produces). -/
theorem replaceKeepOfHigh (d : Char) (hge : 97 ≤ d.toNat) :
    replaceInvalidChar d = d := by
  unfold replaceInvalidChar
  rw [if_neg]
  rintro (h | h | h | h | h) <;> subst h <;> revert hge <;> decide

/-- The lowercase step fixes every character at or above code point 97. -/
theorem goToLowerFixOfHigh (d : Char) (hge : 97 ≤ d.toNat) : goToLower d = d := by
  unfold goToLower
  rw [if_neg]
  omega

/-- One sanitizer pass per character is idempotent. -/
theorem sanCharIdem (c : Char) :
    replaceInvalidChar (goToLower (replaceInvalidChar (goToLower c))) =
      replaceInvalidChar (goToLower c) := by
  by_cases hU : 65 ≤ c.toNat ∧ c.toNat ≤ 90
  · have hv : (c.toNat + 32).isValidChar := Or.inl (by omega)
    have hd : (goToLower c).toNat = c.toNat + 32 := by
      unfold goToLower
      rw [if_pos hU]
      exact charToNatOfNatValid _ hv
    have hge : 97 ≤ (goToLower c).toNat := by omega
    rw [replaceKeepOfHigh _ hge, goToLowerFixOfHigh _ hge, replaceKeepOfHigh _ hge]
  · have hfix : goToLower c = c := by
      unfold goToLower
      rw [if_neg hU]
    rw [hfix]
    by_cases hs : c = '-' ∨ c = ' ' ∨ c = '.' ∨ c = '/' ∨ c = '+'
    · have hrep : replaceInvalidChar c = '_' := by
        unfold replaceInvalidChar
        rw [if_pos hs]
      rw [hrep]
      decide
    · have hrep : replaceInvalidChar c = c := by
        unfold replaceInvalidChar
        rw [if_neg hs]
      rw [hrep, hfix, hrep]

/-- A list of digit characters is untouched by any group of the duration
regular expression: no unit character follows the digit run, so the
optional group does not match and contributes `0`. -/
theorem parseGroupAllDigits (u : Char) (cs : List Char)
    (h : ∀ x ∈ cs, x.isDigit = true) : parseGroup u cs = (0, cs) := by
  have ht : cs.takeWhile Char.isDigit = cs := List.takeWhile_eq_self_iff.mpr h
  have hd : cs.dropWhile Char.isDigit = [] := List.dropWhile_eq_nil_iff.mpr h
  simp only [parseGroup]
  rw [ht, hd]
  cases cs <;> rfl

/-- A group whose digit run and unit character start the input consumes
exactly that run. -/
theorem parseGroupLead (u : Char) (ds rest : List Char) (hne : ds ≠ [])
    (hdig : ∀ x ∈ ds, x.isDigit = true) (hu : u.isDigit = false) :
    parseGroup u (ds ++ u :: rest) = (digitsToNat ds, rest) := by
  have ht : (ds ++ u :: rest).takeWhile Char.isDigit = ds := by
    rw [List.takeWhile_append_of_pos hdig]
    simp [List.takeWhile_cons, hu]
  have hd : (ds ++ u :: rest).dropWhile Char.isDigit = u :: rest := by
    rw [List.dropWhile_append_of_pos hdig]
    simp [List.dropWhile_cons, hu]
  simp only [parseGroup]
  rw [ht, hd]
  cases ds with
  | nil => exact absurd rfl hne
  | cons a t => simp

/-- A group whose unit character does not follow the leading digit run
consumes nothing. -/
theorem parseGroupSkipLead (u u' : Char) (ds rest : List Char)
    (hdig : ∀ x ∈ ds, x.isDigit = true) (hu' : u'.isDigit = false) (hne : u' ≠ u) :
    parseGroup u (ds ++ u' :: rest) = (0, ds ++ u' :: rest) := by
  have ht : (ds ++ u' :: rest).takeWhile Char.isDigit = ds := by
    rw [List.takeWhile_append_of_pos hdig]
    simp [List.takeWhile_cons, hu']
  have hd : (ds ++ u' :: rest).dropWhile Char.isDigit = u' :: rest := by
    rw [List.dropWhile_append_of_pos hdig]
    simp [List.dropWhile_cons, hu']
  simp only [parseGroup]
  rw [ht, hd]
  cases ds with
  | nil => simp [hne]
  | cons a t => simp [hne]

/-! ## The duration grammar (specification side of claim C2) -/

/-- Rendering of one optional group of the duration grammar: absent, or a
nonempty digit run followed by the unit character. -/
def groupStr (u : Char) : Option (List Char) → List Char
  | none => []
  | some ds => ds ++ u :: []

/-- Numeric contribution of one optional group. -/
def groupVal : Option (List Char) → Nat
  | none => 0
  | some ds => digitsToNat ds

/-- Well-formedness of one optional group: if present, a nonempty run of
decimal digits. -/
def DigitsOk : Option (List Char) → Prop
  | none => True
  | some ds => ds ≠ [] ∧ ∀ x ∈ ds, x.isDigit = true

/-- A duration-grammar string: a mandatory sign, then the optional groups
`<digits>D`, `<digits>h`, `<digits>m`, `<digits>s` in that fixed order. -/
def renderDuration (neg : Bool) (dd hh mm ss : Option (List Char)) : String :=
  ⟨(if neg then '-' else '+') ::
    (groupStr 'D' dd ++ (groupStr 'h' hh ++ (groupStr 'm' mm ++ groupStr 's' ss)))⟩

/-- Parsing the seconds group of a rendered tail. -/
theorem parseStageS (ss : Option (List Char)) (hs : DigitsOk ss) :
    parseGroup 's' (groupStr 's' ss) = (groupVal ss, []) := by
  cases ss with
  | none => rfl
  | some ds => exact parseGroupLead 's' ds [] hs.1 hs.2 (by decide)

/-- Parsing the minutes group of a rendered tail. -/
theorem parseStageM (mm ss : Option (List Char)) (hm : DigitsOk mm)
    (hs : DigitsOk ss) :
    parseGroup 'm' (groupStr 'm' mm ++ groupStr 's' ss) =
      (groupVal mm, groupStr 's' ss) := by
  cases mm with
  | some ds =>
    simp only [groupStr, groupVal, List.append_assoc, List.cons_append, List.nil_append]
    exact parseGroupLead 'm' ds _ hm.1 hm.2 (by decide)
  | none =>
    cases ss with
    | none => rfl
    | some ds2 =>
      simp only [groupStr, groupVal, List.nil_append]
      exact parseGroupSkipLead 'm' 's' ds2 [] hs.2 (by decide) (by decide)

/-- Parsing the hours group of a rendered tail. -/
theorem parseStageH (hh mm ss : Option (List Char)) (hht : DigitsOk hh)
    (hm : DigitsOk mm) (hs : DigitsOk ss) :
    parseGroup 'h' (groupStr 'h' hh ++ (groupStr 'm' mm ++ groupStr 's' ss)) =
      (groupVal hh, groupStr 'm' mm ++ groupStr 's' ss) := by
  cases hh with
  | some ds =>
    simp only [groupStr, groupVal, List.append_assoc, List.cons_append, List.nil_append]
    exact parseGroupLead 'h' ds _ hht.1 hht.2 (by decide)
  | none =>
    cases mm with
    | some ds2 =>
      simp only [groupStr, groupVal, List.append_assoc, List.cons_append, List.nil_append]
      exact parseGroupSkipLead 'h' 'm' ds2 _ hm.2 (by decide) (by decide)
    | none =>
      cases ss with
      | none => rfl
      | some ds3 =>
        simp only [groupStr, groupVal, List.nil_append]
        exact parseGroupSkipLead 'h' 's' ds3 [] hs.2 (by decide) (by decide)

/-- Parsing the days group of a rendered tail. -/
theorem parseStageD (dd hh mm ss : Option (List Char)) (hdt : DigitsOk dd)
    (hht : DigitsOk hh) (hm : DigitsOk mm) (hs : DigitsOk ss) :
    parseGroup 'D'
        (groupStr 'D' dd ++ (groupStr 'h' hh ++ (groupStr 'm' mm ++ groupStr 's' ss))) =
      (groupVal dd, groupStr 'h' hh ++ (groupStr 'm' mm ++ groupStr 's' ss)) := by
  cases dd with
  | some ds =>
    simp only [groupStr, groupVal, List.append_assoc, List.cons_append, List.nil_append]
    exact parseGroupLead 'D' ds _ hdt.1 hdt.2 (by decide)
  | none =>
    cases hh with
    | some ds2 =>
      simp only [groupStr, groupVal, List.append_assoc, List.cons_append, List.nil_append]
      exact parseGroupSkipLead 'D' 'h' ds2 _ hht.2 (by decide) (by decide)
    | none =>
      cases mm with
      | some ds3 =>
        simp only [groupStr, groupVal, List.append_assoc, List.cons_append, List.nil_append]
        exact parseGroupSkipLead 'D' 'm' ds3 _ hm.2 (by decide) (by decide)
      | none =>
        cases ss with
        | none => rfl
        | some ds4 =>
          simp only [groupStr, groupVal, List.nil_append]
          exact parseGroupSkipLead 'D' 's' ds4 [] hs.2 (by decide) (by decide)

/-! ## Claims about the duration codec and the sanitizer -/

/-- C2: every string of the duration grammar (mandatory sign, then the
optional groups `<digits>D`, `<digits>h`, `<digits>m`, `<digits>s` in fixed
order with nothing else) parses with `ok=true` and seconds
`D*86400 + h*3600 + m*60 + s`, negated for a `-` sign; in particular
`"+1h30m"` gives `5400`, `"-30m"` gives `-1800`, `"+2D5h10m20s"` gives
`191420` and `"-1D12h"` gives `-129600`. -/
theorem duration_grammar_roundtrip :
    (∀ (neg : Bool) (dd hh mm ss : Option (List Char)),
      DigitsOk dd → DigitsOk hh → DigitsOk mm → DigitsOk ss →
      ParseDurationString (renderDuration neg dd hh mm ss) =
        some ((if neg then (-1 : Int) else 1) *
          ((groupVal dd : Int) * 86400 + (groupVal hh : Int) * 3600 +
            (groupVal mm : Int) * 60 + (groupVal ss : Int)))) ∧
    ParseDurationString "+1h30m" = some 5400 ∧
    ParseDurationString "-30m" = some (-1800) ∧
    ParseDurationString "+2D5h10m20s" = some 191420 ∧
    ParseDurationString "-1D12h" = some (-129600) := by
  refine ⟨?_, by decide, by decide, by decide, by decide⟩
  intro neg dd hh mm ss h1 h2 h3 h4
  have hD := parseStageD dd hh mm ss h1 h2 h3 h4
  have hH := parseStageH hh mm ss h2 h3 h4
  have hM := parseStageM mm ss h3 h4
  have hS := parseStageS ss h4
  cases neg with
  | false =>
    show parseDurationChars ('+' ::
      (groupStr 'D' dd ++ (groupStr 'h' hh ++ (groupStr 'm' mm ++ groupStr 's' ss)))) = _
    simp only [parseDurationChars, hD, hH, hM, hS, if_true, if_false]
    simp
  | true =>
    show parseDurationChars ('-' ::
      (groupStr 'D' dd ++ (groupStr 'h' hh ++ (groupStr 'm' mm ++ groupStr 's' ss)))) = _
    simp only [parseDurationChars, hD, hH, hM, hS, if_true, if_false]
    simp

/-- Witness for C2: the grammar theorem applied to the rendering of
`"+1h30m"`. -/
theorem duration_grammar_roundtrip_witness :
    ParseDurationString (renderDuration false none (some ['1']) (some ['3', '0']) none) =
      some ((if false then (-1 : Int) else 1) *
        ((groupVal none : Int) * 86400 + (groupVal (some ['1']) : Int) * 3600 +
          (groupVal (some ['3', '0']) : Int) * 60 + (groupVal none : Int))) :=
  duration_grammar_roundtrip.1 false none (some ['1']) (some ['3', '0']) none
    (by simp [DigitsOk]) (by simp [DigitsOk]) (by simp [DigitsOk]) (by simp [DigitsOk])

/-- C3 counterexample: a bare sign matches the duration regular expression
(every group is optional), so `ParseDurationString` returns `ok=true` with
`0` seconds on `"+"` and `"-"`, not `ok=false` as claimed. -/
theorem sign_only_parses_ok :
    ParseDurationString "+" = some 0 ∧ ParseDurationString "-" = some 0 := by
  constructor <;> decide

/-- C3 amended: a sign-only input returns `ok=true` with `0` seconds, while
a sign followed by a nonempty digit run with no unit letter returns
`ok=false`. -/
theorem sign_only_and_bare_digits :
    ParseDurationString "+" = some 0 ∧ ParseDurationString "-" = some 0 ∧
    (∀ (c : Char) (ds : List Char), (c = '+' ∨ c = '-') → ds ≠ [] →
      (∀ x ∈ ds, x.isDigit = true) → ParseDurationString ⟨c :: ds⟩ = none) := by
  refine ⟨by decide, by decide, ?_⟩
  intro c ds hc hne hdig
  show parseDurationChars (c :: ds) = none
  simp only [parseDurationChars, if_pos hc, parseGroupAllDigits _ _ hdig]
  rw [if_neg hne]

/-- Witness for the amended C3: the amended theorem applied to `"+123"`. -/
theorem sign_only_and_bare_digits_witness :
    ParseDurationString ⟨'+' :: ['1', '2', '3']⟩ = none :=
  sign_only_and_bare_digits.2.2 '+' ['1', '2', '3'] (Or.inl rfl) (by decide) (by decide)

/-- C9: `SanitizeMetricName` is idempotent on every string, and
`"Zone.Status-Type+Value/Count"` sanitizes to
`"zone_status_type_value_count"`. -/
theorem sanitize_idempotent :
    (∀ x : String, SanitizeMetricName (SanitizeMetricName x) = SanitizeMetricName x) ∧
      SanitizeMetricName "Zone.Status-Type+Value/Count" = "zone_status_type_value_count" := by
  constructor
  · intro x
    simp only [SanitizeMetricName, List.map_map]
    congr 1
    simp only [Function.comp_def]
    exact List.map_congr_left fun c _ => sanCharIdem c
  · decide

/-! ## Registry lemmas and claim C5 -/

/-- A successful lookup returns an entry of the map. -/
theorem lookupDescMem (st : List (String × DescPair)) (k : String) (d : DescPair)
    (h : lookupDesc st k = some d) : (k, d) ∈ st := by
  induction st with
  | nil => simp [lookupDesc] at h
  | cons p rest ih =>
    by_cases hk : p.1 = k
    · have : lookupDesc (p :: rest) k = some p.2 := by
        show (if p.1 = k then some p.2 else lookupDesc rest k) = some p.2
        rw [if_pos hk]
      rw [show (p :: rest : List (String × DescPair)) = (p.1, p.2) :: rest from rfl] at *
      subst hk
      simp only [this, Option.some_inj] at h
      subst h
      exact List.mem_cons_self _ _
    · have : lookupDesc (p :: rest) k = lookupDesc rest k := by
        show (if p.1 = k then some p.2 else lookupDesc rest k) = lookupDesc rest k
        rw [if_neg hk]
      rw [this] at h
      exact List.mem_cons_of_mem _ (ih h)

/-- A failed lookup means the map holds no entry under the key. -/
theorem countKeyZeroOfLookupNone (st : List (String × DescPair)) (k : String)
    (h : lookupDesc st k = none) : countKey st k = 0 := by
  induction st with
  | nil => rfl
  | cons p rest ih =>
    by_cases hk : p.1 = k
    · exfalso
      have : lookupDesc (p :: rest) k = some p.2 := by
        show (if p.1 = k then some p.2 else lookupDesc rest k) = some p.2
        rw [if_pos hk]
      rw [this] at h
      exact Option.noConfusion h
    · have hl : lookupDesc (p :: rest) k = lookupDesc rest k := by
        show (if p.1 = k then some p.2 else lookupDesc rest k) = lookupDesc rest k
        rw [if_neg hk]
      rw [hl] at h
      show (List.filter _ (p :: rest)).length = 0
      rw [List.filter_cons_of_neg (by simpa using hk)]
      exact ih h

/-- A successful lookup means the map holds at least one entry under the
key. -/
theorem countKeyPosOfLookupSome (st : List (String × DescPair)) (k : String)
    (d : DescPair) (h : lookupDesc st k = some d) : 1 ≤ countKey st k := by
  have hm : (k, d) ∈ st := lookupDescMem st k d h
  have : (k, d) ∈ st.filter fun p => p.1 == k := by
    rw [List.mem_filter]
    exact ⟨hm, by simp⟩
  have := List.length_pos_of_mem this
  unfold countKey
  omega

/-- Registry invariant: at most one entry per raw name, and every cached
pair is the one the registry synthesizes for its key. -/
def RegistryWF (mk : String → DescPair) (st : List (String × DescPair)) : Prop :=
  (∀ k, countKey st k ≤ 1) ∧ ∀ p ∈ st, p.2 = mk p.1

/-- C5: in both descriptor registries, getting the same raw name twice
returns the identical pair and leaves the map unchanged, the map then holds
exactly one entry for that name, and the pair's metric name is the
registry's prefix, an underscore and the sanitized raw name. -/
theorem descriptor_registry_unique (st : List (String × DescPair)) (item : String) :
    (RegistryWF mkGlobalDescPair st →
      (getGlobalStatsDescriptor (getGlobalStatsDescriptor st item).2 item).1 =
          (getGlobalStatsDescriptor st item).1 ∧
      (getGlobalStatsDescriptor (getGlobalStatsDescriptor st item).2 item).2 =
          (getGlobalStatsDescriptor st item).2 ∧
      countKey (getGlobalStatsDescriptor st item).2 item = 1 ∧
      (getGlobalStatsDescriptor st item).1.fqName =
        "knot_stats_" ++ SanitizeMetricName item) ∧
    (RegistryWF mkZoneDescPair st →
      (getZoneStatsDescriptor (getZoneStatsDescriptor st item).2 item).1 =
          (getZoneStatsDescriptor st item).1 ∧
      (getZoneStatsDescriptor (getZoneStatsDescriptor st item).2 item).2 =
          (getZoneStatsDescriptor st item).2 ∧
      countKey (getZoneStatsDescriptor st item).2 item = 1 ∧
      (getZoneStatsDescriptor st item).1.fqName =
        "knot_zone_stats_" ++ SanitizeMetricName item) := by
  constructor
  · rintro ⟨hcount, hmk⟩
    cases h : lookupDesc st item with
    | none =>
      have h1 : getGlobalStatsDescriptor st item =
          (mkGlobalDescPair item, (item, mkGlobalDescPair item) :: st) := by
        unfold getGlobalStatsDescriptor
        rw [h]
      have h2 : lookupDesc ((item, mkGlobalDescPair item) :: st) item =
          some (mkGlobalDescPair item) := by
        show (if item = item then _ else _) = _
        rw [if_pos rfl]
      have h3 : getGlobalStatsDescriptor ((item, mkGlobalDescPair item) :: st) item =
          (mkGlobalDescPair item, (item, mkGlobalDescPair item) :: st) := by
        unfold getGlobalStatsDescriptor
        rw [h2]
      refine ⟨by rw [h1, h3], by rw [h1, h3], ?_, by rw [h1]; rfl⟩
      rw [h1]
      show (List.filter _ ((item, mkGlobalDescPair item) :: st)).length = 1
      rw [List.filter_cons_of_pos (by simp)]
      have := countKeyZeroOfLookupNone st item h
      unfold countKey at this
      simp [this]
    | some d =>
      have h1 : getGlobalStatsDescriptor st item = (d, st) := by
        unfold getGlobalStatsDescriptor
        rw [h]
      have hd : d = mkGlobalDescPair item := hmk (item, d) (lookupDescMem st item d h)
      have hagain : getGlobalStatsDescriptor (getGlobalStatsDescriptor st item).2 item = (d, st) := by
        rw [h1]
        exact h1
      refine ⟨by rw [hagain, h1], by rw [hagain, h1], ?_, ?_⟩
      · rw [h1]
        show countKey st item = 1
        have := countKeyPosOfLookupSome st item d h
        have := hcount item
        omega
      · rw [h1, hd]
        rfl
  · rintro ⟨hcount, hmk⟩
    cases h : lookupDesc st item with
    | none =>
      have h1 : getZoneStatsDescriptor st item =
          (mkZoneDescPair item, (item, mkZoneDescPair item) :: st) := by
        unfold getZoneStatsDescriptor
        rw [h]
      have h2 : lookupDesc ((item, mkZoneDescPair item) :: st) item =
          some (mkZoneDescPair item) := by
        show (if item = item then _ else _) = _
        rw [if_pos rfl]
      have h3 : getZoneStatsDescriptor ((item, mkZoneDescPair item) :: st) item =
          (mkZoneDescPair item, (item, mkZoneDescPair item) :: st) := by
        unfold getZoneStatsDescriptor
        rw [h2]
      refine ⟨by rw [h1, h3], by rw [h1, h3], ?_, by rw [h1]; rfl⟩
      rw [h1]
      show (List.filter _ ((item, mkZoneDescPair item) :: st)).length = 1
      rw [List.filter_cons_of_pos (by simp)]
      have := countKeyZeroOfLookupNone st item h
      unfold countKey at this
      simp [this]
    | some d =>
      have h1 : getZoneStatsDescriptor st item = (d, st) := by
        unfold getZoneStatsDescriptor
        rw [h]
      have hd : d = mkZoneDescPair item := hmk (item, d) (lookupDescMem st item d h)
      have hagain : getZoneStatsDescriptor (getZoneStatsDescriptor st item).2 item = (d, st) := by
        rw [h1]
        exact h1
      refine ⟨by rw [hagain, h1], by rw [hagain, h1], ?_, ?_⟩
      · rw [h1]
        show countKey st item = 1
        have := countKeyPosOfLookupSome st item d h
        have := hcount item
        omega
      · rw [h1, hd]
        rfl

/-- Witness for C5: the registry theorem applied to the empty registry and
the raw name `"a.b"`. -/
theorem descriptor_registry_unique_witness :
    countKey (getGlobalStatsDescriptor [] "a.b").2 "a.b" = 1 ∧
      (getGlobalStatsDescriptor [] "a.b").1.fqName =
        "knot_stats_" ++ SanitizeMetricName "a.b" :=
  ⟨((descriptor_registry_unique [] "a.b").1
      ⟨fun k => by simp [countKey], by simp⟩).2.2.1,
    ((descriptor_registry_unique [] "a.b").1
      ⟨fun k => by simp [countKey], by simp⟩).2.2.2⟩

/-! ## Claims about the zone-status phase -/

/-- C1: with serial and zone-status collection enabled, a `DATA` record for
zone `example.com` followed by nine `EXTRA` records whose payloads at
positional indices 1, 7 and 9 are `"2023101801"`, `"+1h30m"` and `"+30D"`
(the other six payloads arbitrary), then `BLOCK`, produces exactly the six
observations serial `2023101801`, refresh `5400` and expiration `2592000`,
each as a gauge/counter pair labelled with the zone. -/
theorem zone_status_positional_decoding (v2 v3 v4 v5 v6 v8 : String) :
    collectZoneStatusInfo true true true
      [.resp .Data ⟨"", "", "", "example.com", ""⟩,
       .resp .Extra ⟨"", "", "", "", "2023101801"⟩,
       .resp .Extra ⟨"", "", "", "", v2⟩,
       .resp .Extra ⟨"", "", "", "", v3⟩,
       .resp .Extra ⟨"", "", "", "", v4⟩,
       .resp .Extra ⟨"", "", "", "", v5⟩,
       .resp .Extra ⟨"", "", "", "", v6⟩,
       .resp .Extra ⟨"", "", "", "", "+1h30m"⟩,
       .resp .Extra ⟨"", "", "", "", v8⟩,
       .resp .Extra ⟨"", "", "", "", "+30D"⟩,
       .resp .Block emptyCtlData] =
      ([⟨.zoneSerial, false, 2023101801, ["example.com"]⟩,
        ⟨.zoneSerial, true, 2023101801, ["example.com"]⟩,
        ⟨.zoneStatusRefresh, false, 5400, ["example.com"]⟩,
        ⟨.zoneStatusRefresh, true, 5400, ["example.com"]⟩,
        ⟨.zoneStatusExpiration, false, 2592000, ["example.com"]⟩,
        ⟨.zoneStatusExpiration, true, 2592000, ["example.com"]⟩], .ok) := by
  have hserial : goParseFloat "2023101801" = some 2023101801 := by decide
  have h7 : convertStateTime "+1h30m" = some 5400 := by decide
  have h9 : convertStateTime "+30D" = some 2592000 := by decide
  simp [collectZoneStatusInfo, zoneStatusLoop, zoneStatusSerialObs,
    zoneStatusTimerObs, hserial, h7, h9, sendMetrics, emptyCtlData]

/-- Witness for C1: the scenario with empty payloads at the unspecified
positions. -/
theorem zone_status_positional_decoding_witness :
    collectZoneStatusInfo true true true
      [.resp .Data ⟨"", "", "", "example.com", ""⟩,
       .resp .Extra ⟨"", "", "", "", "2023101801"⟩,
       .resp .Extra ⟨"", "", "", "", ""⟩,
       .resp .Extra ⟨"", "", "", "", ""⟩,
       .resp .Extra ⟨"", "", "", "", ""⟩,
       .resp .Extra ⟨"", "", "", "", ""⟩,
       .resp .Extra ⟨"", "", "", "", ""⟩,
       .resp .Extra ⟨"", "", "", "", "+1h30m"⟩,
       .resp .Extra ⟨"", "", "", "", ""⟩,
       .resp .Extra ⟨"", "", "", "", "+30D"⟩,
       .resp .Block emptyCtlData] =
      ([⟨.zoneSerial, false, 2023101801, ["example.com"]⟩,
        ⟨.zoneSerial, true, 2023101801, ["example.com"]⟩,
        ⟨.zoneStatusRefresh, false, 5400, ["example.com"]⟩,
        ⟨.zoneStatusRefresh, true, 5400, ["example.com"]⟩,
        ⟨.zoneStatusExpiration, false, 2592000, ["example.com"]⟩,
        ⟨.zoneStatusExpiration, true, 2592000, ["example.com"]⟩], .ok) :=
  zone_status_positional_decoding "" "" "" "" "" ""

/-- C10: the zone-status loop ignores an `EXTRA` record while no zone
cursor is established (no index advance, no observation), a `DATA` record
whose zone is empty or equal to the current cursor neither starts a new
zone context nor resets the index, and only a `DATA` record with a nonempty
different zone starts a new context with index `0`. -/
theorem zone_status_cursor_gating (serialOn statusOn : Bool) (z : String)
    (i : Nat) (d : CtlData) (rest : List RecvItem) :
    (zoneStatusLoop serialOn statusOn "" i (.resp .Extra d :: rest) =
      zoneStatusLoop serialOn statusOn "" i rest) ∧
    (d.Zone = "" ∨ d.Zone = z →
      zoneStatusLoop serialOn statusOn z i (.resp .Data d :: rest) =
        zoneStatusLoop serialOn statusOn z i rest) ∧
    (d.Zone ≠ "" → d.Zone ≠ z →
      zoneStatusLoop serialOn statusOn z i (.resp .Data d :: rest) =
        zoneStatusLoop serialOn statusOn d.Zone 0 rest) := by
  refine ⟨?_, ?_, ?_⟩
  · simp [zoneStatusLoop]
  · intro h
    rcases h with h | h <;> simp [zoneStatusLoop, h]
  · intro h1 h2
    simp [zoneStatusLoop, h1, h2]

/-- Witness for C10: a `DATA` record with an empty zone under the cursor
`example.com`, and a `DATA` record for `example.org` starting a new
context. -/
theorem zone_status_cursor_gating_witness :
    (zoneStatusLoop true true "example.com" 3 [.resp .Data emptyCtlData] =
      zoneStatusLoop true true "example.com" 3 []) ∧
    (zoneStatusLoop true true "example.com" 3 [.resp .Data ⟨"", "", "", "example.org", ""⟩] =
      zoneStatusLoop true true "example.org" 0 []) :=
  ⟨(zone_status_cursor_gating true true "example.com" 3 emptyCtlData []).2.1
      (Or.inl rfl),
    (zone_status_cursor_gating true true "example.com" 3
      ⟨"", "", "", "example.org", ""⟩ []).2.2 (by decide) (by decide)⟩

/-! ## Claims about the zone-timer phase -/

/-- Acceptance predicate of the SOA decoder: exactly 7 fields, a trailing
dot on fields 0 and 1, and integer fields 2 through 6. -/
abbrev SOAShapeOk (fs : List String) : Prop :=
  fs.length = 7 ∧ hasSuffixDot (fs.getD 0 "") = true ∧
  hasSuffixDot (fs.getD 1 "") = true ∧
  (goParseInt64 (fs.getD 2 "")).isSome = true ∧
  (goParseInt64 (fs.getD 3 "")).isSome = true ∧
  (goParseInt64 (fs.getD 4 "")).isSome = true ∧
  (goParseInt64 (fs.getD 5 "")).isSome = true ∧
  (goParseInt64 (fs.getD 6 "")).isSome = true

/-- An accepted SOA record emits refresh (field 3), retry (field 4) and
expiration (field 5), each as a gauge/counter pair. -/
theorem zoneTimerStepAccepted (d : CtlData) (fs : List String) (r3 r4 r5 : Int)
    (hf : goFields d.Data = fs) (hlen : fs.length = 7)
    (h0 : hasSuffixDot (fs.getD 0 "") = true) (h1 : hasSuffixDot (fs.getD 1 "") = true)
    (h2 : (goParseInt64 (fs.getD 2 "")).isSome = true)
    (h3 : goParseInt64 (fs.getD 3 "") = some r3)
    (h4 : goParseInt64 (fs.getD 4 "") = some r4)
    (h5 : goParseInt64 (fs.getD 5 "") = some r5)
    (h6 : (goParseInt64 (fs.getD 6 "")).isSome = true) :
    zoneTimerStep d =
      sendMetrics .zoneRefresh (r3 : ℚ) [d.Zone] ++
      sendMetrics .zoneRetry (r4 : ℚ) [d.Zone] ++
      sendMetrics .zoneExpiration (r5 : ℚ) [d.Zone] := by
  obtain ⟨n2, hn2⟩ := Option.isSome_iff_exists.mp h2
  obtain ⟨n6, hn6⟩ := Option.isSome_iff_exists.mp h6
  unfold zoneTimerStep
  rw [hf, if_pos hlen, if_pos ⟨h0, h1⟩, hn2, h3, h4, h5, hn6]

/-- A record failing any of the shape checks emits nothing. -/
theorem zoneTimerStepRejected (d : CtlData) (hbad : ¬SOAShapeOk (goFields d.Data)) :
    zoneTimerStep d = [] := by
  unfold SOAShapeOk at hbad
  push_neg at hbad
  unfold zoneTimerStep
  by_cases hlen : (goFields d.Data).length = 7
  · rw [if_pos hlen]
    by_cases h0 : hasSuffixDot ((goFields d.Data).getD 0 "") = true
    · by_cases h1 : hasSuffixDot ((goFields d.Data).getD 1 "") = true
      · rw [if_pos ⟨h0, h1⟩]
        rcases Option.eq_none_or_eq_some (goParseInt64 ((goFields d.Data).getD 2 "")) with hc | ⟨n2, hc⟩
        · rw [hc]
        · rw [hc]
          rcases Option.eq_none_or_eq_some (goParseInt64 ((goFields d.Data).getD 3 "")) with hc3 | ⟨n3, hc3⟩
          · rw [hc3]
          · rw [hc3]
            rcases Option.eq_none_or_eq_some (goParseInt64 ((goFields d.Data).getD 4 "")) with hc4 | ⟨n4, hc4⟩
            · rw [hc4]
            · rw [hc4]
              rcases Option.eq_none_or_eq_some (goParseInt64 ((goFields d.Data).getD 5 "")) with hc5 | ⟨n5, hc5⟩
              · rw [hc5]
              · rw [hc5]
                rcases Option.eq_none_or_eq_some (goParseInt64 ((goFields d.Data).getD 6 "")) with hc6 | ⟨n6, hc6⟩
                · rw [hc6]
                · have hne := hbad hlen h0 h1 (by rw [hc]; rfl) (by rw [hc3]; rfl)
                    (by rw [hc4]; rfl) (by rw [hc5]; rfl)
                  rw [hc6] at hne
                  exact absurd rfl hne
      · rw [if_neg (by intro hand; exact h1 hand.2)]
    · rw [if_neg (by intro hand; exact h0 hand.1)]
  · rw [if_neg hlen]

/-- One unfolding step of the bounded zone-timer receive loop. -/
theorem zoneTimerLoopCons (n : Nat) (t : CtlType) (d : CtlData) (rest : List RecvItem) :
    zoneTimerLoop (n + 1) (.resp t d :: rest) =
      (if t = .Block ∨ t = .End then ([], .ok)
       else ((if t = .Data ∧ d.Zone ≠ "" then zoneTimerStep d else []) ++
              (zoneTimerLoop n rest).1,
             (zoneTimerLoop n rest).2)) := rfl

/-- C4: in the zone-timer phase, a `DATA` record with a nonempty zone whose
payload splits into exactly 7 fields with trailing dots on fields 0 and 1
and integer fields 2 through 6 yields exactly the six observations
refresh = field 3, retry = field 4 and expiration = field 5 as
gauge/counter pairs labelled by zone; a record failing any of the checks
yields zero observations and no error. -/
theorem zone_timer_soa_decoding :
    (∀ (d : CtlData) (fs : List String) (r3 r4 r5 : Int),
      d.Zone ≠ "" → goFields d.Data = fs → fs.length = 7 →
      hasSuffixDot (fs.getD 0 "") = true → hasSuffixDot (fs.getD 1 "") = true →
      (goParseInt64 (fs.getD 2 "")).isSome = true →
      goParseInt64 (fs.getD 3 "") = some r3 →
      goParseInt64 (fs.getD 4 "") = some r4 →
      goParseInt64 (fs.getD 5 "") = some r5 →
      (goParseInt64 (fs.getD 6 "")).isSome = true →
      collectZoneTimerInfo true [.resp .Data d, .resp .Block emptyCtlData] =
        (sendMetrics .zoneRefresh (r3 : ℚ) [d.Zone] ++
         sendMetrics .zoneRetry (r4 : ℚ) [d.Zone] ++
         sendMetrics .zoneExpiration (r5 : ℚ) [d.Zone], .ok)) ∧
    (∀ d : CtlData, ¬SOAShapeOk (goFields d.Data) →
      collectZoneTimerInfo true [.resp .Data d, .resp .Block emptyCtlData] =
        ([], .ok)) := by
  have e1 : maxResponses = 99999 + 1 := rfl
  have e2 : (99999 : Nat) = 99998 + 1 := rfl
  have hnb : ¬(CtlType.Data = .Block ∨ CtlType.Data = .End) := by
    rintro (h | h) <;> exact CtlType.noConfusion h
  constructor
  · intro d fs r3 r4 r5 hz hf hlen h0 h1 h2 h3 h4 h5 h6
    have hstep := zoneTimerStepAccepted d fs r3 r4 r5 hf hlen h0 h1 h2 h3 h4 h5 h6
    show zoneTimerLoop maxResponses _ = _
    rw [e1, zoneTimerLoopCons, if_neg hnb, if_pos ⟨rfl, hz⟩, hstep,
      e2, zoneTimerLoopCons, if_pos (Or.inl rfl)]
    simp
  · intro d hbad
    have hstep := zoneTimerStepRejected d hbad
    show zoneTimerLoop maxResponses _ = _
    rw [e1, zoneTimerLoopCons, if_neg hnb, hstep,
      e2, zoneTimerLoopCons, if_pos (Or.inl rfl)]
    simp

/-- Witness for C4: the SOA record of the specification's example, and a
six-field record that is rejected. -/
theorem zone_timer_soa_decoding_witness :
    collectZoneTimerInfo true
        [.resp .Data ⟨"", "", "", "example.com",
          "ns1.example.com. admin.example.com. 2023101801 3600 600 86400 300"⟩,
         .resp .Block emptyCtlData] =
      (sendMetrics .zoneRefresh (3600 : ℚ) ["example.com"] ++
       sendMetrics .zoneRetry (600 : ℚ) ["example.com"] ++
       sendMetrics .zoneExpiration (86400 : ℚ) ["example.com"], .ok) ∧
    collectZoneTimerInfo true
        [.resp .Data ⟨"", "", "", "example.com",
          "admin.example.com. 2023101801 3600 600 86400 300"⟩,
         .resp .Block emptyCtlData] =
      ([], .ok) :=
  ⟨zone_timer_soa_decoding.1
      ⟨"", "", "", "example.com",
        "ns1.example.com. admin.example.com. 2023101801 3600 600 86400 300"⟩
      ["ns1.example.com.", "admin.example.com.", "2023101801", "3600", "600",
        "86400", "300"]
      3600 600 86400 (by decide) (by decide) (by decide) (by decide) (by decide)
      (by decide) (by decide) (by decide) (by decide) (by decide),
    zone_timer_soa_decoding.2
      ⟨"", "", "", "example.com",
        "admin.example.com. 2023101801 3600 600 86400 300"⟩
      (by decide)⟩

/-- A record the loops process and continue past is neither `BLOCK` nor
`END`. -/
theorem notBlockEndOfPlain (t : CtlType) (d : CtlData)
    (h : isPlainRec (.resp t d) = true) : ¬(t = .Block ∨ t = .End) := by
  cases t <;> simp_all [isPlainRec]

/-- One unfolding step of the global-stats receive loop. -/
theorem globalStatsLoopCons (t : CtlType) (d : CtlData) (rest : List RecvItem) :
    globalStatsLoop (.resp t d :: rest) =
      if t = .Block ∨ t = .End then ([], .ok)
      else (globalStatsHere t d ++ (globalStatsLoop rest).1, (globalStatsLoop rest).2) := rfl

/-- A transport error after a clean prefix ends the global-stats loop with
the error, keeping exactly the observations of the prefix. -/
theorem globalStatsLoopErrSplit (pre rest : List RecvItem) (h : CleanStream pre) :
    globalStatsLoop (pre ++ .recvErr :: rest) = ((globalStatsLoop pre).1, .err) := by
  induction pre with
  | nil => rfl
  | cons it pre' ih =>
    cases it with
    | recvErr =>
      exact absurd (h _ (List.mem_cons_self _ _)) (by simp [isPlainRec])
    | resp t d =>
      have hnb := notBlockEndOfPlain t d (h _ (List.mem_cons_self _ _))
      have hih := ih fun x hx => h x (List.mem_cons_of_mem _ hx)
      rw [List.cons_append, globalStatsLoopCons, if_neg hnb, hih,
        globalStatsLoopCons, if_neg hnb]

/-- One unfolding step of the zone-stats receive loop. -/
theorem zoneStatsLoopCons (t : CtlType) (d : CtlData) (rest : List RecvItem) :
    zoneStatsLoop (.resp t d :: rest) =
      if t = .Block ∨ t = .End then ([], .ok)
      else (zoneStatsHere t d ++ (zoneStatsLoop rest).1, (zoneStatsLoop rest).2) := rfl

/-- A transport error after a clean prefix ends the zone-stats loop with
the error, keeping exactly the observations of the prefix. -/
theorem zoneStatsLoopErrSplit (pre rest : List RecvItem) (h : CleanStream pre) :
    zoneStatsLoop (pre ++ .recvErr :: rest) = ((zoneStatsLoop pre).1, .err) := by
  induction pre with
  | nil => rfl
  | cons it pre' ih =>
    cases it with
    | recvErr =>
      exact absurd (h _ (List.mem_cons_self _ _)) (by simp [isPlainRec])
    | resp t d =>
      have hnb := notBlockEndOfPlain t d (h _ (List.mem_cons_self _ _))
      have hih := ih fun x hx => h x (List.mem_cons_of_mem _ hx)
      rw [List.cons_append, zoneStatsLoopCons, if_neg hnb, hih,
        zoneStatsLoopCons, if_neg hnb]

/-- One unfolding step of the zone-status receive loop. -/
theorem zoneStatusLoopCons (serialOn statusOn : Bool) (z : String) (i : Nat)
    (t : CtlType) (d : CtlData) (rest : List RecvItem) :
    zoneStatusLoop serialOn statusOn z i (.resp t d :: rest) =
      if t = .Block ∨ t = .End then ([], .ok)
      else if t = .Data ∧ d.Zone ≠ "" ∧ d.Zone ≠ z then
        zoneStatusLoop serialOn statusOn d.Zone 0 rest
      else if t = .Extra ∧ z ≠ "" then
        (zoneStatusSerialObs serialOn d (i + 1) z ++
          zoneStatusTimerObs statusOn d (i + 1) z ++
          (zoneStatusLoop serialOn statusOn z (i + 1) rest).1,
         (zoneStatusLoop serialOn statusOn z (i + 1) rest).2)
      else zoneStatusLoop serialOn statusOn z i rest := rfl

/-- A transport error after a clean prefix ends the zone-status loop with
the error, keeping exactly the observations of the prefix, from any cursor
state. -/
theorem zoneStatusLoopErrSplit (serialOn statusOn : Bool) (pre rest : List RecvItem)
    (h : CleanStream pre) :
    ∀ (z : String) (i : Nat),
      zoneStatusLoop serialOn statusOn z i (pre ++ .recvErr :: rest) =
        ((zoneStatusLoop serialOn statusOn z i pre).1, .err) := by
  induction pre with
  | nil => intro z i; rfl
  | cons it pre' ih =>
    intro z i
    cases it with
    | recvErr =>
      exact absurd (h _ (List.mem_cons_self _ _)) (by simp [isPlainRec])
    | resp t d =>
      have hnb := notBlockEndOfPlain t d (h _ (List.mem_cons_self _ _))
      have hih := ih fun x hx => h x (List.mem_cons_of_mem _ hx)
      rw [List.cons_append, zoneStatusLoopCons, if_neg hnb,
        zoneStatusLoopCons serialOn statusOn z i t d pre', if_neg hnb]
      by_cases hA : t = .Data ∧ d.Zone ≠ "" ∧ d.Zone ≠ z
      · rw [if_pos hA, if_pos hA, hih]
      · rw [if_neg hA, if_neg hA]
        by_cases hB : t = .Extra ∧ z ≠ ""
        · rw [if_pos hB, if_pos hB, hih]
        · rw [if_neg hB, if_neg hB, hih]

/-- A transport error after a clean prefix shorter than the remaining
allowance ends the zone-timer loop with the error, keeping exactly the
observations of the prefix. -/
theorem zoneTimerLoopErrSplit (pre rest : List RecvItem) (h : CleanStream pre) :
    ∀ n : Nat, pre.length < n →
      zoneTimerLoop n (pre ++ .recvErr :: rest) = ((zoneTimerLoop n pre).1, .err) := by
  induction pre with
  | nil =>
    intro n hn
    match n, hn with
    | n + 1, _ => rfl
  | cons it pre' ih =>
    intro n hn
    match n, hn with
    | n + 1, hn =>
      cases it with
      | recvErr =>
        exact absurd (h _ (List.mem_cons_self _ _)) (by simp [isPlainRec])
      | resp t d =>
        have hnb := notBlockEndOfPlain t d (h _ (List.mem_cons_self _ _))
        have hih := ih (fun x hx => h x (List.mem_cons_of_mem _ hx)) n
          (by simp at hn; omega)
        rw [List.cons_append, zoneTimerLoopCons, if_neg hnb, hih,
          zoneTimerLoopCons, if_neg hnb]

/-- C6: every phase returns a send error with zero observations, and a
receive error after any cleanly processed prefix terminates the phase with
that error while the observations already emitted in the phase are kept
(for the zone-timer phase, provided the record bound has not been
reached). -/
theorem phase_transport_errors :
    (∀ stream, collectGlobalStats false stream = ([], .err)) ∧
    (∀ serialOn statusOn stream,
      collectZoneStatusInfo serialOn statusOn false stream = ([], .err)) ∧
    (∀ stream, collectZoneStatistics false stream = ([], .err)) ∧
    (∀ stream, collectZoneTimerInfo false stream = ([], .err)) ∧
    (∀ pre rest, CleanStream pre →
      collectGlobalStats true (pre ++ .recvErr :: rest) =
        ((collectGlobalStats true pre).1, .err)) ∧
    (∀ serialOn statusOn pre rest, CleanStream pre →
      collectZoneStatusInfo serialOn statusOn true (pre ++ .recvErr :: rest) =
        ((collectZoneStatusInfo serialOn statusOn true pre).1, .err)) ∧
    (∀ pre rest, CleanStream pre →
      collectZoneStatistics true (pre ++ .recvErr :: rest) =
        ((collectZoneStatistics true pre).1, .err)) ∧
    (∀ pre rest, CleanStream pre → pre.length < maxResponses →
      collectZoneTimerInfo true (pre ++ .recvErr :: rest) =
        ((collectZoneTimerInfo true pre).1, .err)) := by
  refine ⟨fun s => rfl, fun _ _ s => rfl, fun s => rfl, fun s => rfl, ?_, ?_, ?_, ?_⟩
  · intro pre rest h
    exact globalStatsLoopErrSplit pre rest h
  · intro serialOn statusOn pre rest h
    exact zoneStatusLoopErrSplit serialOn statusOn pre rest h "" 0
  · intro pre rest h
    exact zoneStatsLoopErrSplit pre rest h
  · intro pre rest h hlen
    exact zoneTimerLoopErrSplit pre rest h maxResponses hlen

/-- Witness for C6: a send failure on the global-stats phase, and a receive
error after one processed record on the zone-timer phase. -/
theorem phase_transport_errors_witness :
    collectGlobalStats false [] = ([], .err) ∧
    collectZoneTimerInfo true ([.resp .Data emptyCtlData] ++ .recvErr :: []) =
      ((collectZoneTimerInfo true [.resp .Data emptyCtlData]).1, .err) :=
  ⟨phase_transport_errors.1 [],
    phase_transport_errors.2.2.2.2.2.2.2 [.resp .Data emptyCtlData] []
      (by intro it hit; simp at hit; subst hit; rfl) (by decide)⟩

/-- The bounded zone-timer loop never looks past its allowance of
records. -/
theorem zoneTimerLoopTake : ∀ (n : Nat) (stream : List RecvItem),
    zoneTimerLoop n stream = zoneTimerLoop n (stream.take n) := by
  intro n
  induction n with
  | zero => intro s; rfl
  | succ k ih =>
    intro s
    cases s with
    | nil => rfl
    | cons it rest =>
      cases it with
      | recvErr => rfl
      | resp t d =>
        rw [List.take_succ_cons, zoneTimerLoopCons, zoneTimerLoopCons, ih rest]

/-- Exhausting the allowance on a clean stream ends the zone-timer loop
without an error. -/
theorem zoneTimerLoopCleanOk : ∀ (n : Nat) (stream : List RecvItem),
    CleanStream (stream.take n) → n ≤ stream.length →
    (zoneTimerLoop n stream).2 = .ok := by
  intro n
  induction n with
  | zero => intro s _ _; rfl
  | succ k ih =>
    intro s hclean hlen
    cases s with
    | nil => simp at hlen
    | cons it rest =>
      cases it with
      | recvErr =>
        exact absurd (hclean _ (by rw [List.take_succ_cons]; exact List.mem_cons_self _ _))
          (by simp [isPlainRec])
      | resp t d =>
        have hnb := notBlockEndOfPlain t d
          (hclean _ (by rw [List.take_succ_cons]; exact List.mem_cons_self _ _))
        rw [zoneTimerLoopCons, if_neg hnb]
        exact ih rest
          (fun x hx => hclean x
            (by rw [List.take_succ_cons]; exact List.mem_cons_of_mem _ hx))
          (by simpa using hlen)

/-- C8: the zone-timer phase processes at most `maxResponses` (100000)
records -- its result only depends on the first 100000 receive results --
and on a stream whose first 100000 records are plain records (no `BLOCK`,
`END` or error ever arrives) it stops at the bound without reporting an
error. -/
theorem zone_timer_bounded (stream : List RecvItem)
    (hclean : CleanStream (stream.take maxResponses))
    (hlen : maxResponses ≤ stream.length) :
    (∀ (sendOk : Bool) (s : List RecvItem),
      collectZoneTimerInfo sendOk s = collectZoneTimerInfo sendOk (s.take maxResponses)) ∧
    (collectZoneTimerInfo true stream).2 = .ok := by
  constructor
  · intro sendOk s
    cases sendOk with
    | false => rfl
    | true =>
      show zoneTimerLoop maxResponses s = zoneTimerLoop maxResponses (s.take maxResponses)
      exact zoneTimerLoopTake maxResponses s
  · show (zoneTimerLoop maxResponses stream).2 = .ok
    exact zoneTimerLoopCleanOk maxResponses stream hclean hlen

/-- Witness for C8: a stream of 100000 plain records. -/
theorem zone_timer_bounded_witness :
    (collectZoneTimerInfo true (List.replicate maxResponses (.resp .Data emptyCtlData))).2 =
      .ok :=
  (zone_timer_bounded (List.replicate maxResponses (.resp .Data emptyCtlData))
    (by
      intro it hit
      rw [List.take_replicate] at hit
      rw [List.mem_replicate] at hit
      rw [hit.2]
      rfl)
    (by rw [List.length_replicate])).2

/-- No observation of the list is the build-info metric. -/
def NoBuildInfo (l : List Obs) : Prop := ∀ o ∈ l, o.desc ≠ .buildInfo

/-- The empty emission has no build-info observation. -/
theorem noBuildNil : NoBuildInfo [] := by
  intro o ho
  simp at ho

/-- Concatenation preserves `NoBuildInfo`. -/
theorem noBuildAppend {a b : List Obs} (ha : NoBuildInfo a) (hb : NoBuildInfo b) :
    NoBuildInfo (a ++ b) := by
  intro o ho
  rcases List.mem_append.mp ho with h | h
  exacts [ha o h, hb o h]

/-- Branching preserves `NoBuildInfo`. -/
theorem noBuildIte {c : Prop} [Decidable c] {a b : List Obs}
    (ha : NoBuildInfo a) (hb : NoBuildInfo b) : NoBuildInfo (if c then a else b) := by
  split
  exacts [ha, hb]

/-- A gauge/counter pair for a non-build-info descriptor has no build-info
observation. -/
theorem noBuildSendMetrics (d : Desc) (hd : d ≠ .buildInfo) (v : ℚ) (ls : List String) :
    NoBuildInfo (sendMetrics d v ls) := by
  intro o ho
  simp only [sendMetrics, List.mem_cons, List.mem_singleton, List.not_mem_nil] at ho
  rcases ho with h | h | h
  · subst h; exact hd
  · subst h; exact hd
  · simp at h

/-- The global-stats per-record emission never emits build-info. -/
theorem globalStatsHereNoBuild (t : CtlType) (d : CtlData) :
    NoBuildInfo (globalStatsHere t d) := by
  unfold globalStatsHere
  split
  · split
    · exact noBuildSendMetrics _ (fun h => Desc.noConfusion h) _ _
    · exact noBuildNil
  · exact noBuildNil

/-- The global-stats loop never emits build-info. -/
theorem globalStatsLoopNoBuild : ∀ s, NoBuildInfo (globalStatsLoop s).1 := by
  intro s
  induction s with
  | nil => exact noBuildNil
  | cons it rest ih =>
    cases it with
    | recvErr => exact noBuildNil
    | resp t d =>
      rw [globalStatsLoopCons]
      split
      · exact noBuildNil
      · exact noBuildAppend (globalStatsHereNoBuild t d) ih

/-- The zone-stats per-record emission never emits build-info. -/
theorem zoneStatsHereNoBuild (t : CtlType) (d : CtlData) :
    NoBuildInfo (zoneStatsHere t d) := by
  unfold zoneStatsHere
  split
  · split
    · exact noBuildSendMetrics _ (fun h => Desc.noConfusion h) _ _
    · exact noBuildNil
  · exact noBuildNil

/-- The zone-stats loop never emits build-info. -/
theorem zoneStatsLoopNoBuild : ∀ s, NoBuildInfo (zoneStatsLoop s).1 := by
  intro s
  induction s with
  | nil => exact noBuildNil
  | cons it rest ih =>
    cases it with
    | recvErr => exact noBuildNil
    | resp t d =>
      rw [zoneStatsLoopCons]
      split
      · exact noBuildNil
      · exact noBuildAppend (zoneStatsHereNoBuild t d) ih

/-- The zone-serial emission never emits build-info. -/
theorem zoneStatusSerialObsNoBuild (serialOn : Bool) (d : CtlData) (idx : Nat)
    (zone : String) : NoBuildInfo (zoneStatusSerialObs serialOn d idx zone) := by
  unfold zoneStatusSerialObs
  split
  · split
    · exact noBuildSendMetrics _ (fun h => Desc.noConfusion h) _ _
    · exact noBuildNil
  · exact noBuildNil

/-- The zone-status timer emission never emits build-info. -/
theorem zoneStatusTimerObsNoBuild (statusOn : Bool) (d : CtlData) (idx : Nat)
    (zone : String) : NoBuildInfo (zoneStatusTimerObs statusOn d idx zone) := by
  unfold zoneStatusTimerObs
  split
  · split
    · split
      · exact noBuildSendMetrics _ (fun h => Desc.noConfusion h) _ _
      · exact noBuildNil
    · split
      · split
        · exact noBuildSendMetrics _ (fun h => Desc.noConfusion h) _ _
        · exact noBuildNil
      · exact noBuildNil
  · exact noBuildNil

/-- The zone-status loop never emits build-info. -/
theorem zoneStatusLoopNoBuild (serialOn statusOn : Bool) :
    ∀ (s : List RecvItem) (z : String) (i : Nat),
      NoBuildInfo (zoneStatusLoop serialOn statusOn z i s).1 := by
  intro s
  induction s with
  | nil => intro z i; exact noBuildNil
  | cons it rest ih =>
    intro z i
    cases it with
    | recvErr => exact noBuildNil
    | resp t d =>
      rw [zoneStatusLoopCons]
      split
      · exact noBuildNil
      · split
        · exact ih _ _
        · split
          · exact noBuildAppend
              (noBuildAppend (zoneStatusSerialObsNoBuild _ _ _ _)
                (zoneStatusTimerObsNoBuild _ _ _ _)) (ih _ _)
          · exact ih _ _

/-- The SOA decoder never emits build-info. -/
theorem zoneTimerStepNoBuild (d : CtlData) : NoBuildInfo (zoneTimerStep d) := by
  simp only [zoneTimerStep]
  split
  · split
    · split
      · exact noBuildNil
      · split
        · exact noBuildNil
        · split
          · exact noBuildNil
          · split
            · exact noBuildNil
            · split
              · exact noBuildNil
              · exact noBuildAppend
                  (noBuildAppend (noBuildSendMetrics _ (fun h => Desc.noConfusion h) _ _)
                    (noBuildSendMetrics _ (fun h => Desc.noConfusion h) _ _))
                  (noBuildSendMetrics _ (fun h => Desc.noConfusion h) _ _)
    · exact noBuildNil
  · exact noBuildNil

/-- The zone-timer loop never emits build-info. -/
theorem zoneTimerLoopNoBuild : ∀ (n : Nat) (s : List RecvItem),
    NoBuildInfo (zoneTimerLoop n s).1 := by
  intro n
  induction n with
  | zero => intro s; exact noBuildNil
  | succ k ih =>
    intro s
    cases s with
    | nil => exact noBuildNil
    | cons it rest =>
      cases it with
      | recvErr => exact noBuildNil
      | resp t d =>
        rw [zoneTimerLoopCons]
        split
        · exact noBuildNil
        · refine noBuildAppend ?_ (ih rest)
          split
          · exact zoneTimerStepNoBuild d
          · exact noBuildNil

/-- The global-stats phase never emits build-info. -/
theorem collectGlobalStatsNoBuild (b : Bool) (s : List RecvItem) :
    NoBuildInfo (collectGlobalStats b s).1 := by
  cases b
  · exact noBuildNil
  · exact globalStatsLoopNoBuild s

/-- The zone-status phase never emits build-info. -/
theorem collectZoneStatusNoBuild (serialOn statusOn b : Bool) (s : List RecvItem) :
    NoBuildInfo (collectZoneStatusInfo serialOn statusOn b s).1 := by
  cases b
  · exact noBuildNil
  · exact zoneStatusLoopNoBuild serialOn statusOn s "" 0

/-- The zone-stats phase never emits build-info. -/
theorem collectZoneStatisticsNoBuild (b : Bool) (s : List RecvItem) :
    NoBuildInfo (collectZoneStatistics b s).1 := by
  cases b
  · exact noBuildNil
  · exact zoneStatsLoopNoBuild s

/-- The zone-timer phase never emits build-info. -/
theorem collectZoneTimerNoBuild (b : Bool) (s : List RecvItem) :
    NoBuildInfo (collectZoneTimerInfo b s).1 := by
  cases b
  · exact noBuildNil
  · exact zoneTimerLoopNoBuild maxResponses s

/-- The memory-usage emission never emits build-info. -/
theorem memNoBuild (l : List (String × Nat)) :
    NoBuildInfo (l.flatMap fun p => sendMetrics .memoryUsage (p.2 : ℚ) [p.1]) := by
  intro o ho
  rw [List.mem_flatMap] at ho
  obtain ⟨p, hp, hmem⟩ := ho
  exact noBuildSendMetrics _ (fun h => Desc.noConfusion h) _ _ o hmem

/-- The zone-timers tail of `Collect` never emits build-info. -/
theorem zoneTimersPartNoBuild (f : CollectorConfig) (e : CollectEnv) :
    NoBuildInfo (zoneTimersPart f e) := by
  unfold zoneTimersPart
  exact noBuildIte
    (noBuildIte noBuildNil (noBuildIte noBuildNil (collectZoneTimerNoBuild _ _)))
    noBuildNil

/-- The transport-dependent tail of `Collect` never emits build-info. -/
theorem collectTailNoBuild (f : CollectorConfig) (e : CollectEnv) :
    NoBuildInfo (collectTail f e) := by
  unfold collectTail
  refine noBuildIte noBuildNil ?_
  refine noBuildIte noBuildNil ?_
  refine noBuildAppend
    (noBuildAppend (noBuildIte (memNoBuild _) noBuildNil)
      (noBuildIte (collectGlobalStatsNoBuild _ _) noBuildNil)) ?_
  refine noBuildIte noBuildNil ?_
  refine noBuildIte noBuildNil ?_
  refine noBuildAppend (noBuildIte (collectZoneStatusNoBuild _ _ _ _) noBuildNil) ?_
  refine noBuildIte ?_ (zoneTimersPartNoBuild f e)
  refine noBuildIte noBuildNil ?_
  refine noBuildIte noBuildNil ?_
  exact noBuildAppend (collectZoneStatisticsNoBuild _ _) (zoneTimersPartNoBuild f e)

/-- C7: every invocation of `Collect` emits the build-info observation
first -- before anything that depends on a transport session -- and emits
it exactly once, whatever the flags and however the transport, the sends
and the streams behave; the model's return type carries no error, as the
Go method returns nothing to its caller. -/
theorem collect_build_info_always (f : CollectorConfig) (e : CollectEnv) :
    (Collect f e).head? = some (buildInfoObs e) ∧
    ((Collect f e).filter fun o => o.desc == Desc.buildInfo).length = 1 := by
  constructor
  · rfl
  · show ((buildInfoObs e :: collectTail f e).filter fun o => o.desc == Desc.buildInfo).length = 1
    rw [List.filter_cons_of_pos (by simp [buildInfoObs])]
    have hnil : (collectTail f e).filter (fun o => o.desc == Desc.buildInfo) = [] := by
      rw [List.filter_eq_nil_iff]
      intro o ho
      simpa using collectTailNoBuild f e o ho
    rw [List.length_cons, hnil]
    rfl

/-- Witness for C7: a collector with every flag on whose very first
allocation fails. -/
theorem collect_build_info_always_witness :
    (Collect ⟨true, true, true, true, true, true⟩
        ⟨false, false, false, false, false, false, false, false, [], false, false,
          false, false, [], [], [], [], []⟩).head? =
      some (buildInfoObs
        ⟨false, false, false, false, false, false, false, false, [], false, false,
          false, false, [], [], [], [], []⟩) :=
  (collect_build_info_always ⟨true, true, true, true, true, true⟩
    ⟨false, false, false, false, false, false, false, false, [], false, false,
      false, false, [], [], [], [], []⟩).1
